import Mathlib

/-!
Verification of the segment-parsing and cut/concat sequencing logic of the
video-cutter repository (`video_cutter.py` and its front ends), as a shallow
embedding in Lean 4.

Python strings are modelled as `String` / `List Char`; Python `float` values
produced by the time parser are modelled as exact rationals `ℚ`; Python `int`
as `ℤ`.  The external world of `cut_video_segments` (the `ffmpeg` subprocess,
the filesystem) is modelled by an explicit environment, and the function is
embedded as a trace-producing state transformer.
-/

set_option maxRecDepth 4000

/-! ## Python string primitives -/

/-- `str.strip()` with no argument: drop whitespace from both ends. -/
def stripL (l : List Char) : List Char :=
  ((l.dropWhile Char.isWhitespace).reverse.dropWhile Char.isWhitespace).reverse

/-- `str.split(sep)` for a one-character separator `sep` (no maxsplit):
`"a:b".split(':') = ["a","b"]`, `"".split(':') = [""]`. -/
def splitOnChar (sep : Char) : List Char → List (List Char)
  | [] => [[]]
  | c :: rest =>
    if c = sep then [] :: splitOnChar sep rest
    else
      match splitOnChar sep rest with
      | [] => [[c]]
      | h :: t => (c :: h) :: t

/-- `str.split(sep, 1)` restricted to inputs that contain `sep`:
the pieces before and after the first occurrence of `sep`. -/
def splitFirst (sep : Char) : List Char → List Char × List Char
  | [] => ([], [])
  | c :: rest =>
    if c = sep then ([], rest)
    else
      let p := splitFirst sep rest
      (c :: p.1, p.2)

/-- Big-endian decimal value of a digit-character list (the numeric core of
Python `int`/`float` literal parsing). -/
def digitsToNat (l : List Char) : ℕ :=
  l.foldl (fun a c => 10 * a + (c.toNat - 48)) 0

/-- Shared digit-run check used by `int()` on a sign-free literal. -/
def pyIntDigits (l : List Char) : Option ℤ :=
  if l.isEmpty then none
  else if l.all Char.isDigit then some (digitsToNat l : ℤ) else none

/-- Python `int(s)` on a stripped character list: optional sign followed by a
nonempty digit run (exotic literal forms such as `1_0` are out of scope for
the inputs this program handles). -/
def pyIntL : List Char → Option ℤ
  | [] => none
  | c :: rest =>
    if c = '+' then pyIntDigits rest
    else if c = '-' then (pyIntDigits rest).map (fun n => -n)
    else pyIntDigits (c :: rest)

/-- Python `int(s)`: `int` itself strips surrounding whitespace. -/
def pyInt (s : String) : Option ℤ := pyIntL (stripL s.toList)

/-- `float()` on a sign-free literal: `digits [ "." digits ]` with at least
one digit; the value is exact (Python floats are modelled as rationals). -/
def pyFloatDigits (l : List Char) : Option ℚ :=
  let ip := l.takeWhile Char.isDigit
  let rest := l.dropWhile Char.isDigit
  match rest with
  | [] => if ip.isEmpty then none else some (digitsToNat ip : ℚ)
  | '.' :: frac =>
    if frac.all Char.isDigit then
      if ip.isEmpty && frac.isEmpty then none
      else some ((digitsToNat ip : ℚ) + (digitsToNat frac : ℚ) / 10 ^ frac.length)
    else none
  | _ => none

/-- Python `float(s)` on a stripped character list: optional sign then a
decimal literal (exponent forms do not occur in this program's inputs). -/
def pyFloatL : List Char → Option ℚ
  | [] => none
  | c :: rest =>
    if c = '+' then pyFloatDigits rest
    else if c = '-' then (pyFloatDigits rest).map (fun q => -q)
    else pyFloatDigits (c :: rest)

/-- Python `float(s)`: `float` itself strips surrounding whitespace. -/
def pyFloat (s : String) : Option ℚ := pyFloatL (stripL s.toList)

/-- Decimal digit character for `d < 10`. -/
def decDigit (d : ℕ) : Char := Char.ofNat (48 + d)

/-- Digit extraction with explicit fuel so that the definition reduces
structurally; `fuel` bounds the number of digits produced. -/
def natToDecAux : ℕ → ℕ → List Char
  | 0, _ => []
  | fuel + 1, n => if n = 0 then [] else natToDecAux fuel (n / 10) ++ [decDigit (n % 10)]

/-- Decimal representation of a natural number, most significant digit
first (the digit string produced by Python `"%d"`); `n` itself is always
enough fuel since `n < 10 ^ n`. -/
def natToDec (n : ℕ) : List Char :=
  if n = 0 then ['0'] else natToDecAux n n

/-- Zero-pad a character list on the left to width `w` (Python `"%0wd"`). -/
def zfillL (w : ℕ) (l : List Char) : List Char :=
  List.replicate (w - l.length) '0' ++ l

/-- Python `f"{n:0wd}"` for an integer `n` (sign first, zeros after it). -/
def intZPadL (w : ℕ) (n : ℤ) : List Char :=
  if n < 0 then '-' :: zfillL (w - 1) (natToDec n.natAbs) else zfillL w (natToDec n.toNat)

/-! ## The errors raised by `video_cutter.py`

All parse failures are Python `ValueError`s; the spec classifies them by the
raise site, which is recorded here in the constructor. -/

inductive PyError where
  /-- `ValueError` raised at the end of `parse_time_to_seconds` (wrong field
  count); spec name: `FormatError` for a time string, also used for the
  missing-`-` raise in `parse_segments`. -/
  | formatError (msg : String)
  /-- `ValueError` raised in `parse_segments` when `end_time <= start_time`;
  spec name: `InvalidRangeError`. -/
  | invalidRange (msg : String)
  /-- `ValueError` raised inside `int(...)` / `float(...)` on a field that is
  not a numeric literal; carries the offending stripped input. -/
  | numError (lit : String)
deriving DecidableEq, Repr

deriving instance DecidableEq for Except

/-! ## `parse_time_to_seconds` (video_cutter.py lines 15-34) -/

/-- `parse_time_to_seconds`: `parts = time_str.strip().split(':')`;
two fields → `int(m)*60 + float(s)`, three fields →
`int(h)*3600 + int(m)*60 + float(s)`, otherwise `ValueError` naming
`time_str`. -/
def parse_time_to_seconds (time_str : String) : Except PyError ℚ :=
  match splitOnChar ':' (stripL time_str.toList) with
  | [m, s] =>
    match pyIntL m, pyFloatL s with
    | some mi, some sv => .ok ((mi : ℚ) * 60 + sv)
    | none, _ => .error (.numError (String.mk m))
    | _, none => .error (.numError (String.mk s))
  | [h, m, s] =>
    match pyIntL h, pyIntL m, pyFloatL s with
    | some hi, some mi, some sv => .ok ((hi : ℚ) * 3600 + (mi : ℚ) * 60 + sv)
    | none, _, _ => .error (.numError (String.mk h))
    | _, none, _ => .error (.numError (String.mk m))
    | _, _, none => .error (.numError (String.mk s))
  | _ => .error (.formatError ("Định dạng thời gian không hợp lệ: " ++ time_str))

/-! ## `parse_segments` (video_cutter.py lines 37-70) -/

/-- One iteration of the `parse_segments` loop on a raw token from
`segments_str.split('|')`: strip, skip if empty, require a `-`, split at the
first `-`, parse both halves, require `start < end`. -/
def segStep (segment : String) : Except PyError (Option (ℚ × ℚ)) :=
  let seg := stripL segment.toList
  if seg.isEmpty then .ok none
  else if seg.contains '-' = false then
    .error (.formatError ("Đoạn không hợp lệ (thiếu dấu '-'): " ++ String.mk seg))
  else
    let p := splitFirst '-' seg
    match parse_time_to_seconds (String.mk p.1), parse_time_to_seconds (String.mk p.2) with
    | .error e, _ => .error e
    | .ok _, .error e => .error e
    | .ok start_time, .ok end_time =>
      if end_time ≤ start_time then
        .error (.invalidRange ("Thời gian kết thúc phải lớn hơn thời gian bắt đầu: " ++ String.mk seg))
      else .ok (some (start_time, end_time))

/-- The `parse_segments` loop over the token list, accumulating pairs in
input order; the first raised error aborts the whole parse. -/
def segsGo : List String → Except PyError (List (ℚ × ℚ))
  | [] => .ok []
  | tok :: rest =>
    match segStep tok with
    | .error e => .error e
    | .ok none => segsGo rest
    | .ok (some p) =>
      match segsGo rest with
      | .error e => .error e
      | .ok ps => .ok (p :: ps)

/-- `parse_segments`: split on `|` and run the loop. -/
def parse_segments (segments_str : String) : Except PyError (List (ℚ × ℚ)) :=
  segsGo ((splitOnChar '|' segments_str.toList).map String.mk)

/-- The (start, end) pair a token contributes when it parses, `none` when it
is skipped as empty (used to state the success case of `parse_segments`). -/
def segOk (tok : String) : Option (ℚ × ℚ) :=
  match segStep tok with
  | .ok r => r
  | .error _ => none

/-! ## `format_duration` (video_cutter.py lines 73-82) -/

/-- Python float `a % b` (sign of the divisor): `a - b * ⌊a / b⌋`. -/
def pyFloorMod (a b : ℚ) : ℚ := a - b * ⌊a / b⌋

/-- Python `f"{secs:06.3f}"` for the nonnegative `secs = seconds % 60 ∈ [0, 60)`
produced by `format_duration`: round to three decimals, zero-pad the integer
part to two digits. -/
def fmtSecs63 (q : ℚ) : List Char :=
  let m : ℕ := (⌊q * 1000 + 1 / 2⌋).toNat
  zfillL 2 (natToDec (m / 1000)) ++ '.' :: zfillL 3 (natToDec (m % 1000))

/-- `format_duration`: `hours = int(seconds // 3600)`,
`minutes = int((seconds % 3600) // 60)`, `secs = seconds % 60`, rendered as
`HH:MM:SS.mmm` when `hours > 0` and `MM:SS.mmm` otherwise. -/
def formatDurationL (seconds : ℚ) : List Char :=
  let hours : ℤ := ⌊seconds / 3600⌋
  let minutes : ℤ := ⌊pyFloorMod seconds 3600 / 60⌋
  let secs : ℚ := pyFloorMod seconds 60
  if 0 < hours then
    intZPadL 2 hours ++ ':' :: intZPadL 2 minutes ++ ':' :: fmtSecs63 secs
  else
    intZPadL 2 minutes ++ ':' :: fmtSecs63 secs

/-- `format_duration` as a `String`-valued function. -/
def format_duration (seconds : ℚ) : String := String.mk (formatDurationL seconds)

/-! Digit-character facts used whenever concrete strings are evaluated. -/

@[simp] lemma toNat_digit0 : Char.toNat '0' = 48 := rfl

@[simp] lemma toNat_digit1 : Char.toNat '1' = 49 := rfl

@[simp] lemma toNat_digit2 : Char.toNat '2' = 50 := rfl

@[simp] lemma toNat_digit3 : Char.toNat '3' = 51 := rfl

@[simp] lemma toNat_digit4 : Char.toNat '4' = 52 := rfl

@[simp] lemma toNat_digit5 : Char.toNat '5' = 53 := rfl

@[simp] lemma toNat_digit6 : Char.toNat '6' = 54 := rfl

@[simp] lemma toNat_digit7 : Char.toNat '7' = 55 := rfl

@[simp] lemma toNat_digit8 : Char.toNat '8' = 56 := rfl

@[simp] lemma toNat_digit9 : Char.toNat '9' = 57 := rfl

/-! ## Helper lemmas for the time parser -/

/-- Two colon-separated fields that parse numerically: `int(m)*60 + float(s)`. -/
lemma parse_time_two (t : String) (m s : List Char) (mi : ℤ) (sv : ℚ)
    (hp : splitOnChar ':' (stripL t.toList) = [m, s])
    (hm : pyIntL m = some mi) (hs : pyFloatL s = some sv) :
    parse_time_to_seconds t = .ok ((mi : ℚ) * 60 + sv) := by
  unfold parse_time_to_seconds
  rw [hp]
  simp [hm, hs]

/-- Three colon-separated fields that parse numerically:
`int(h)*3600 + int(m)*60 + float(s)`. -/
lemma parse_time_three (t : String) (h m s : List Char) (hi mi : ℤ) (sv : ℚ)
    (hp : splitOnChar ':' (stripL t.toList) = [h, m, s])
    (hh : pyIntL h = some hi) (hm : pyIntL m = some mi) (hs : pyFloatL s = some sv) :
    parse_time_to_seconds t = .ok ((hi : ℚ) * 3600 + (mi : ℚ) * 60 + sv) := by
  unfold parse_time_to_seconds
  rw [hp]
  simp [hh, hm, hs]

/-- Any field count other than 2 or 3 raises the `ValueError` naming the
offending string. -/
lemma parse_time_other (t : String)
    (h2 : (splitOnChar ':' (stripL t.toList)).length ≠ 2)
    (h3 : (splitOnChar ':' (stripL t.toList)).length ≠ 3) :
    parse_time_to_seconds t =
      .error (.formatError ("Định dạng thời gian không hợp lệ: " ++ t)) := by
  unfold parse_time_to_seconds
  rcases hl : splitOnChar ':' (stripL t.toList) with _ | ⟨a, _ | ⟨b, _ | ⟨c, _ | ⟨d, rest⟩⟩⟩⟩ <;>
    simp_all

/-! ## Helper lemmas for the segment parser -/

/-- A nonempty stripped token without `-` raises the missing-dash `ValueError`. -/
lemma segStep_no_dash (tok : String)
    (h1 : (stripL tok.toList).isEmpty = false)
    (h2 : (stripL tok.toList).contains '-' = false) :
    segStep tok =
      .error (.formatError ("Đoạn không hợp lệ (thiếu dấu '-'): " ++
        String.mk (stripL tok.toList))) := by
  simp only [List.isEmpty_eq_false] at h1
  replace h2 : ¬ '-' ∈ stripL tok.toList := by simpa using h2
  have h1d : stripL tok.data ≠ [] := h1
  have h2d : ¬ '-' ∈ stripL tok.data := h2
  unfold segStep
  simp [h1d, h2d]

/-- A token whose halves parse with `end ≤ start` raises the invalid-range
`ValueError` naming the stripped token. -/
lemma segStep_bad_range (tok : String) (st en : ℚ)
    (h1 : (stripL tok.toList).isEmpty = false)
    (h2 : (stripL tok.toList).contains '-' = true)
    (hs : parse_time_to_seconds (String.mk (splitFirst '-' (stripL tok.toList)).1) = .ok st)
    (he : parse_time_to_seconds (String.mk (splitFirst '-' (stripL tok.toList)).2) = .ok en)
    (hle : en ≤ st) :
    segStep tok =
      .error (.invalidRange ("Thời gian kết thúc phải lớn hơn thời gian bắt đầu: " ++
        String.mk (stripL tok.toList))) := by
  simp only [List.isEmpty_eq_false] at h1
  replace h2 : '-' ∈ stripL tok.toList := by simpa using h2
  have h1d : stripL tok.data ≠ [] := h1
  have h2d : '-' ∈ stripL tok.data := h2
  have hsd : parse_time_to_seconds (String.mk (splitFirst '-' (stripL tok.data)).1) = .ok st := hs
  have hed : parse_time_to_seconds (String.mk (splitFirst '-' (stripL tok.data)).2) = .ok en := he
  unfold segStep
  simp [h1d, h2d, hsd, hed, hle]

/-- A token whose halves parse with `start < end` yields that pair. -/
lemma segStep_ok_range (tok : String) (st en : ℚ)
    (h1 : (stripL tok.toList).isEmpty = false)
    (h2 : (stripL tok.toList).contains '-' = true)
    (hs : parse_time_to_seconds (String.mk (splitFirst '-' (stripL tok.toList)).1) = .ok st)
    (he : parse_time_to_seconds (String.mk (splitFirst '-' (stripL tok.toList)).2) = .ok en)
    (hlt : st < en) :
    segStep tok = .ok (some (st, en)) := by
  simp only [List.isEmpty_eq_false] at h1
  replace h2 : '-' ∈ stripL tok.toList := by simpa using h2
  have h1d : stripL tok.data ≠ [] := h1
  have h2d : '-' ∈ stripL tok.data := h2
  have hsd : parse_time_to_seconds (String.mk (splitFirst '-' (stripL tok.data)).1) = .ok st := hs
  have hed : parse_time_to_seconds (String.mk (splitFirst '-' (stripL tok.data)).2) = .ok en := he
  unfold segStep
  simp [h1d, h2d, hsd, hed, not_le.mpr hlt]

/-- If any token of the list raises, the whole loop raises (possibly an
earlier token's error). -/
lemma segsGo_error_of_mem (toks : List String) (tok : String) (e : PyError)
    (hmem : tok ∈ toks) (herr : segStep tok = .error e) :
    ∃ e2, segsGo toks = .error e2 := by
  induction toks with
  | nil => cases hmem
  | cons t rest ih =>
    rcases List.mem_cons.mp hmem with rfl | hmem2
    · rw [segsGo, herr]
      exact ⟨e, rfl⟩
    · rw [segsGo]
      rcases hstep : segStep t with e1 | r
      · exact ⟨e1, rfl⟩
      · obtain ⟨e2, h2⟩ := ih hmem2
        rcases r with _ | p
        · exact ⟨e2, h2⟩
        · rw [h2]
          exact ⟨e2, rfl⟩

/-- If every token succeeds, the loop returns the parsed pairs of the
non-empty tokens, in input order. -/
lemma segsGo_ok_of_all (toks : List String)
    (h : ∀ tok ∈ toks, ∃ r, segStep tok = .ok r) :
    segsGo toks = .ok (toks.filterMap segOk) := by
  induction toks with
  | nil => rfl
  | cons t rest ih =>
    obtain ⟨r, hr⟩ := h t (List.mem_cons_self t rest)
    have hrest := ih (fun tok hm => h tok (List.mem_cons_of_mem t hm))
    rw [segsGo, hr, List.filterMap_cons]
    rcases r with _ | p
    · simp [segOk, hr, hrest]
    · simp [segOk, hr, hrest]

/-! ## Claims C1-C4: the time and segment parsers -/

/-- Claim C1: `parse_time_to_seconds` splits on `:`; with exactly two fields
it returns `minutes*60 + seconds`, with exactly three fields
`hours*3600 + minutes*60 + seconds`, and with any other field count it fails
with the `ValueError` (spec: `FormatError`) naming the offending string;
`"03:05"` parses to 185.0 and `"1:03:05"` to 3785.0. -/
theorem claim_c1 :
    (∀ t m s mi sv, splitOnChar ':' (stripL t.toList) = [m, s] →
        pyIntL m = some mi → pyFloatL s = some sv →
        parse_time_to_seconds t = .ok ((mi : ℚ) * 60 + sv))
    ∧ (∀ t h m s hi mi sv, splitOnChar ':' (stripL t.toList) = [h, m, s] →
        pyIntL h = some hi → pyIntL m = some mi → pyFloatL s = some sv →
        parse_time_to_seconds t = .ok ((hi : ℚ) * 3600 + (mi : ℚ) * 60 + sv))
    ∧ (∀ t, (splitOnChar ':' (stripL t.toList)).length ≠ 2 →
        (splitOnChar ':' (stripL t.toList)).length ≠ 3 →
        parse_time_to_seconds t =
          .error (.formatError ("Định dạng thời gian không hợp lệ: " ++ t)))
    ∧ parse_time_to_seconds "03:05" = .ok 185
    ∧ parse_time_to_seconds "1:03:05" = .ok 3785 := by
  refine ⟨parse_time_two, parse_time_three, parse_time_other, ?_, ?_⟩
  · norm_num +decide [parse_time_to_seconds, stripL, splitOnChar, pyIntL, pyIntDigits, pyFloatL,
      pyFloatDigits, digitsToNat]
  · norm_num +decide [parse_time_to_seconds, stripL, splitOnChar, pyIntL, pyIntDigits, pyFloatL,
      pyFloatDigits, digitsToNat]

/-- Witness for C1: the hypotheses of each universally quantified conjunct are
satisfiable at concrete inputs. -/
theorem claim_c1_witness :
    parse_time_to_seconds "03:05" = .ok (((3 : ℤ) : ℚ) * 60 + 5)
    ∧ parse_time_to_seconds "1:03:05" =
        .ok (((1 : ℤ) : ℚ) * 3600 + ((3 : ℤ) : ℚ) * 60 + 5)
    ∧ parse_time_to_seconds "7" =
        .error (.formatError ("Định dạng thời gian không hợp lệ: " ++ "7")) :=
  ⟨claim_c1.1 "03:05" ['0', '3'] ['0', '5'] 3 5 (by decide) (by decide)
      (by norm_num +decide [pyFloatL, pyFloatDigits, digitsToNat]),
   claim_c1.2.1 "1:03:05" ['1'] ['0', '3'] ['0', '5'] 1 3 5 (by decide) (by decide) (by decide)
      (by norm_num +decide [pyFloatL, pyFloatDigits, digitsToNat]),
   claim_c1.2.2.1 "7" (by decide) (by decide)⟩

/-- Claim C2: in `parse_segments`, a non-empty stripped token without `-`
raises the missing-dash `ValueError` (spec: `FormatError`); a token is split
at the first `-` and both halves go through `parse_time_to_seconds`; a token
with `end ≤ start` raises the invalid-range `ValueError` (spec:
`InvalidRangeError`) naming the token; any failing token makes the whole
parse fail; `"03:10-03:05"` fails. -/
theorem claim_c2 :
    (∀ tok, (stripL tok.toList).isEmpty = false →
        (stripL tok.toList).contains '-' = false →
        segStep tok = .error (.formatError ("Đoạn không hợp lệ (thiếu dấu '-'): " ++
          String.mk (stripL tok.toList))))
    ∧ (∀ tok st en, (stripL tok.toList).isEmpty = false →
        (stripL tok.toList).contains '-' = true →
        parse_time_to_seconds (String.mk (splitFirst '-' (stripL tok.toList)).1) = .ok st →
        parse_time_to_seconds (String.mk (splitFirst '-' (stripL tok.toList)).2) = .ok en →
        en ≤ st →
        segStep tok = .error (.invalidRange
          ("Thời gian kết thúc phải lớn hơn thời gian bắt đầu: " ++
            String.mk (stripL tok.toList))))
    ∧ (∀ s tok, tok ∈ (splitOnChar '|' s.toList).map String.mk →
        (∃ e, segStep tok = .error e) → ∃ e2, parse_segments s = .error e2)
    ∧ parse_segments "03:10-03:05" =
        .error (.invalidRange "Thời gian kết thúc phải lớn hơn thời gian bắt đầu: 03:10-03:05") := by
  refine ⟨segStep_no_dash, segStep_bad_range, ?_, ?_⟩
  · intro s tok hmem ⟨e, he⟩
    exact segsGo_error_of_mem _ tok e hmem he
  · norm_num +decide [parse_segments, segsGo, segStep, parse_time_to_seconds, stripL, splitOnChar,
      splitFirst, pyIntL, pyIntDigits, pyFloatL, pyFloatDigits, digitsToNat]

/-- Witness for C2: each hypothesis-bearing conjunct holds at a concrete
input. -/
theorem claim_c2_witness :
    segStep "abc" = .error (.formatError ("Đoạn không hợp lệ (thiếu dấu '-'): " ++
        String.mk (stripL "abc".toList)))
    ∧ segStep "03:10-03:05" = .error (.invalidRange
        ("Thời gian kết thúc phải lớn hơn thời gian bắt đầu: " ++
          String.mk (stripL "03:10-03:05".toList)))
    ∧ (∃ e2, parse_segments "abc" = .error e2) :=
  ⟨claim_c2.1 "abc" (by decide) (by decide),
   claim_c2.2.1 "03:10-03:05" 190 185 (by decide) (by decide)
      (by norm_num +decide [parse_time_to_seconds, stripL, splitOnChar, splitFirst, pyIntL,
        pyIntDigits, pyFloatL, pyFloatDigits, digitsToNat])
      (by norm_num +decide [parse_time_to_seconds, stripL, splitOnChar, splitFirst, pyIntL,
        pyIntDigits, pyFloatL, pyFloatDigits, digitsToNat])
      (by norm_num),
   claim_c2.2.2.1 "abc" "abc" (by decide)
      ⟨.formatError ("Đoạn không hợp lệ (thiếu dấu '-'): " ++ String.mk (stripL "abc".toList)),
        claim_c2.1 "abc" (by decide) (by decide)⟩⟩

/-- Claim C3: when every token parses, `parse_segments` returns the (start,
end) pairs in input order, skipping empty tokens, with no check against
unordered or overlapping ranges; the empty input yields `[]` without error;
the three-segment example yields exactly its three ordered pairs. -/
theorem claim_c3 :
    (∀ s, (∀ tok ∈ (splitOnChar '|' s.toList).map String.mk, ∃ r, segStep tok = .ok r) →
        parse_segments s = .ok (((splitOnChar '|' s.toList).map String.mk).filterMap segOk))
    ∧ parse_segments "" = .ok []
    ∧ parse_segments "03:05-03:10|40:05-40:10|1:03:05-1:04:05" =
        .ok [(185, 190), (2405, 2410), (3785, 3845)]
    ∧ parse_segments "40:05-40:10|03:05-03:10" = .ok [(2405, 2410), (185, 190)]
    ∧ parse_segments "03:05-03:10|03:06-03:12" = .ok [(185, 190), (186, 192)] := by
  refine ⟨fun s h => segsGo_ok_of_all _ h, ?_, ?_, ?_, ?_⟩
  · rfl
  · norm_num +decide [parse_segments, segsGo, segStep, parse_time_to_seconds, stripL, splitOnChar,
      splitFirst, pyIntL, pyIntDigits, pyFloatL, pyFloatDigits, digitsToNat]
  · norm_num +decide [parse_segments, segsGo, segStep, parse_time_to_seconds, stripL, splitOnChar,
      splitFirst, pyIntL, pyIntDigits, pyFloatL, pyFloatDigits, digitsToNat]
  · norm_num +decide [parse_segments, segsGo, segStep, parse_time_to_seconds, stripL, splitOnChar,
      splitFirst, pyIntL, pyIntDigits, pyFloatL, pyFloatDigits, digitsToNat]

/-- Witness for C3: the all-tokens-valid hypothesis is satisfiable at a
concrete two-token input. -/
theorem claim_c3_witness :
    parse_segments "03:05-03:10|40:05-40:10" =
      .ok (((splitOnChar '|' "03:05-03:10|40:05-40:10".toList).map String.mk).filterMap segOk) :=
  claim_c3.1 "03:05-03:10|40:05-40:10" (by
    intro tok hmem
    have hd : (splitOnChar '|' "03:05-03:10|40:05-40:10".toList).map String.mk
        = ["03:05-03:10", "40:05-40:10"] := by decide
    rw [hd] at hmem
    have : tok = "03:05-03:10" ∨ tok = "40:05-40:10" := by simpa using hmem
    rcases this with rfl | rfl
    · exact ⟨some (185, 190), by
        norm_num +decide [segStep, parse_time_to_seconds, stripL, splitOnChar, splitFirst,
          pyIntL, pyIntDigits, pyFloatL, pyFloatDigits, digitsToNat]⟩
    · exact ⟨some (2405, 2410), by
        norm_num +decide [segStep, parse_time_to_seconds, stripL, splitOnChar, splitFirst,
          pyIntL, pyIntDigits, pyFloatL, pyFloatDigits, digitsToNat]⟩)

/-- Counterexample to C4 as stated: `"99:99"` has both fields ≥ 60 yet is
accepted (as 6039.0), and `"-1:30"` is accepted with a negative value, so the
TimeSpec range/sign invariant is not enforced by the parser. -/
theorem claim_c4_counterexample :
    parse_time_to_seconds "99:99" = .ok 6039 ∧ (60 : ℚ) ≤ 99
    ∧ parse_time_to_seconds "-1:30" = .ok (-30) ∧ (-30 : ℚ) < 0 := by
  refine ⟨?_, by norm_num, ?_, by norm_num⟩
  · norm_num +decide [parse_time_to_seconds, stripL, splitOnChar, pyIntL, pyIntDigits, pyFloatL,
      pyFloatDigits, digitsToNat]
  · norm_num +decide [parse_time_to_seconds, stripL, splitOnChar, pyIntL, pyIntDigits, pyFloatL,
      pyFloatDigits, digitsToNat]

/-- Claim C4 (amended): the time parser enforces no range or sign invariant:
any two-field string whose fields parse numerically is accepted with value
`minutes*60 + seconds` regardless of bounds; in particular `"99:99"` (both
fields ≥ 60), `"00:75"` (seconds ≥ 60) and `"-1:30"` (negative result) are
all accepted. -/
theorem claim_c4_amended :
    (∀ t m s mi sv, splitOnChar ':' (stripL t.toList) = [m, s] →
        pyIntL m = some mi → pyFloatL s = some sv →
        parse_time_to_seconds t = .ok ((mi : ℚ) * 60 + sv))
    ∧ parse_time_to_seconds "99:99" = .ok 6039
    ∧ parse_time_to_seconds "00:75" = .ok 75
    ∧ parse_time_to_seconds "-1:30" = .ok (-30) := by
  refine ⟨parse_time_two, ?_, ?_, ?_⟩ <;>
    norm_num +decide [parse_time_to_seconds, stripL, splitOnChar, pyIntL, pyIntDigits, pyFloatL,
      pyFloatDigits, digitsToNat]

/-- Witness for the amended C4: its universally quantified conjunct holds at
the out-of-range input `"99:99"`. -/
theorem claim_c4_amended_witness :
    parse_time_to_seconds "99:99" = .ok (((99 : ℤ) : ℚ) * 60 + 99) :=
  claim_c4_amended.1 "99:99" ['9', '9'] ['9', '9'] 99 99 (by decide) (by decide)
    (by norm_num +decide [pyFloatL, pyFloatDigits, digitsToNat])

/-! ## `cut_video_segments` (video_cutter.py lines 97-203)

The external world (the `ffmpeg` binary, the filesystem) is abstracted into
an environment; the function is embedded as a producer of an ordered event
trace plus a result.  `str()` on a Python float is kept abstract
(`pyStr`), as is `os.path.abspath`. -/

/-- Result of `subprocess.run`: exit code and captured stderr. -/
structure ProcResult where
  returncode : ℤ
  stderr : String
deriving DecidableEq, Repr

/-- The ambient world of one `cut_video_segments` run. -/
structure Env where
  /-- whether `check_ffmpeg()` succeeds -/
  ffmpegInstalled : Bool
  /-- `os.path.exists` for the input video -/
  inputExists : String → Bool
  /-- outcome of `subprocess.run` for a given argument vector -/
  run : List String → ProcResult
  /-- `os.path.abspath` -/
  absPath : String → String
  /-- Python `str()` of a float value -/
  pyStr : ℚ → String

/-- Observable actions of `cut_video_segments`, in program order. -/
inductive Event where
  /-- the `check_ffmpeg()` probe -/
  | checkFfmpeg
  /-- `os.makedirs(temp_dir, exist_ok=True)` -/
  | makeTempDir (dir : String)
  /-- one `subprocess.run(cmd)` invocation -/
  | runProc (cmd : List String)
  /-- a file produced by a successful external invocation (its output path) -/
  | createFile (path : String)
  /-- writing `concat_list.txt` with the given lines -/
  | writeManifest (path : String) (lines : List String)
  /-- `shutil.rmtree(temp_dir)` attempted in the `finally` block -/
  | removeTree (dir : String)
  /-- the warning printed when `rmtree` raises -/
  | warn (msg : String)
deriving DecidableEq, Repr

/-- The exceptions `cut_video_segments` can raise. -/
inductive CutErr where
  /-- `RuntimeError` when ffmpeg is not installed -/
  | ffmpegMissing (msg : String)
  /-- `FileNotFoundError` for the input video (spec: `NotFoundError`) -/
  | notFound (msg : String)
  /-- `RuntimeError` from a non-zero exit of a per-segment cut, carrying the
  1-based segment index and the decoded stderr (spec: `ProcessingError`) -/
  | segmentError (idx : ℕ) (diag : String)
  /-- `RuntimeError` from a non-zero exit of the concat invocation, carrying
  the decoded stderr (spec: `ProcessingError`) -/
  | concatError (diag : String)
deriving DecidableEq, Repr

/-- An ordered trace of events together with the Python-level outcome. -/
structure Outcome where
  events : List Event
  result : Except CutErr Unit
deriving DecidableEq, Repr

/-- `enumerate(segments, 1)`. -/
def enum1From (n : ℕ) : List (ℚ × ℚ) → List (ℕ × ℚ × ℚ)
  | [] => []
  | p :: rest => (n, p) :: enum1From (n + 1) rest

/-- `os.path.join(temp_dir, f"segment_{idx:03d}.mp4")`. -/
def segFileName (tempDir : String) (idx : ℕ) : String :=
  tempDir ++ "/segment_" ++ String.mk (zfillL 3 (natToDec idx)) ++ ".mp4"

/-- The per-segment ffmpeg argument vector built in the cut loop. -/
def cutCmd (env : Env) (input tempDir : String) (idx : ℕ) (st en : ℚ) : List String :=
  ["ffmpeg", "-ss", env.pyStr st, "-i", input, "-t", env.pyStr (en - st),
   "-c:v", "libx264", "-c:a", "aac", "-strict", "experimental", "-y",
   segFileName tempDir idx]

/-- The concat-demuxer ffmpeg argument vector. -/
def concatCmd (concatFile output : String) : List String :=
  ["ffmpeg", "-f", "concat", "-safe", "0", "-i", concatFile, "-c", "copy", "-y", output]

/-- The cut loop over the enumerated segments: returns the events it
performed, the `segment_files` list it accumulated (the output name is
appended before the invocation runs, as in the source), and the first
failure (index, stderr) if any; the loop stops at the first failure. -/
def cutSegs (env : Env) (input tempDir : String) :
    List (ℕ × ℚ × ℚ) → List Event × List String × Option (ℕ × String)
  | [] => ([], [], none)
  | (idx, st, en) :: rest =>
    let cmd := cutCmd env input tempDir idx st en
    let res := env.run cmd
    if res.returncode ≠ 0 then
      ([Event.runProc cmd], [segFileName tempDir idx], some (idx, res.stderr))
    else
      let r := cutSegs env input tempDir rest
      (Event.runProc cmd :: Event.createFile (segFileName tempDir idx) :: r.1,
       segFileName tempDir idx :: r.2.1, r.2.2)

/-- The `finally` block: `rmtree` is attempted (the directory was created at
entry); a failing `rmtree` is swallowed and only warns. -/
def cleanupEvents (tempDir : String) (rmtreeOk : Bool) : List Event :=
  if rmtreeOk then [Event.removeTree tempDir]
  else [Event.removeTree tempDir, Event.warn "Không thể xóa thư mục tạm"]

/-- `cut_video_segments(input_video, segments, output_video, temp_dir)`:
check ffmpeg, check the input file, make the temp dir, cut each segment in
order (aborting on the first non-zero exit), write the concat manifest of
absolute paths, run the concat invocation, and always attempt cleanup of the
temp dir from the `finally` block. `rmtreeOk` says whether `shutil.rmtree`
succeeds in this run. -/
def cut_video_segments (env : Env) (rmtreeOk : Bool) (input_video : String)
    (segments : List (ℚ × ℚ)) (output_video temp_dir : String) : Outcome :=
  if env.ffmpegInstalled = false then
    ⟨[Event.checkFfmpeg],
     .error (.ffmpegMissing "ffmpeg chưa được cài đặt. Vui lòng cài đặt ffmpeg trước.")⟩
  else if env.inputExists input_video = false then
    ⟨[Event.checkFfmpeg],
     .error (.notFound ("Không tìm thấy file video: " ++ input_video))⟩
  else
    let pre := [Event.checkFfmpeg, Event.makeTempDir temp_dir]
    let r := cutSegs env input_video temp_dir (enum1From 1 segments)
    match r.2.2 with
    | some (idx, diag) =>
      ⟨pre ++ r.1 ++ cleanupEvents temp_dir rmtreeOk, .error (.segmentError idx diag)⟩
    | none =>
      let concatFile := temp_dir ++ "/concat_list.txt"
      let lines := r.2.1.map (fun p => "file '" ++ env.absPath p ++ "'")
      let ccmd := concatCmd concatFile output_video
      let res := env.run ccmd
      if res.returncode ≠ 0 then
        ⟨pre ++ r.1 ++ [Event.writeManifest concatFile lines, Event.runProc ccmd]
           ++ cleanupEvents temp_dir rmtreeOk,
         .error (.concatError res.stderr)⟩
      else
        ⟨pre ++ r.1 ++ [Event.writeManifest concatFile lines, Event.runProc ccmd,
            Event.createFile output_video] ++ cleanupEvents temp_dir rmtreeOk,
         .ok ()⟩

/-- Paths written during a run: files created by successful invocations and
the manifest. -/
def writtenPaths : List Event → List String
  | [] => []
  | Event.createFile p :: r => p :: writtenPaths r
  | Event.writeManifest p _ :: r => p :: writtenPaths r
  | _ :: r => writtenPaths r

/-! ## The `cut_video_segments` call signature (C5)

`video_cutter.py` defines `cut_video_segments(input_video, segments,
output_video, temp_dir="temp_segments")` and no `**kwargs`; the GUI
(`video_cutter_gui.py`, `process_video`) and the interactive front end
(`video_cutter_interactive.py`) call it with additional keyword arguments.
Python accepts a keyword call only when every keyword names a parameter. -/

/-- The parameter names of `cut_video_segments` in `video_cutter.py`. -/
def cutVideoSegmentsParams : List String :=
  ["input_video", "segments", "output_video", "temp_dir"]

/-- Keywords passed by `VideoCutterGUI.process_video`. -/
def guiCallKeywords : List String :=
  ["input_video", "segments", "output_video", "temp_dir", "mode", "max_workers",
   "remove_audio", "progress_callback"]

/-- Keywords passed by the interactive front end. -/
def interactiveCallKeywords : List String :=
  ["input_video", "segments", "output_video", "mode", "remove_audio"]

/-- Python call binding for keyword arguments against a parameter list with
no `**kwargs`: every keyword must name a parameter, else `TypeError`. -/
def callAccepted (params kws : List String) : Bool :=
  kws.all params.contains

/-! ## Helper lemmas for the cutter model -/

/-- Expected event trace of a fully successful cut loop. -/
def cutTrace (env : Env) (input tempDir : String) : List (ℕ × ℚ × ℚ) → List Event
  | [] => []
  | (idx, st, en) :: rest =>
    Event.runProc (cutCmd env input tempDir idx st en)
      :: Event.createFile (segFileName tempDir idx)
      :: cutTrace env input tempDir rest

/-- The temp-file names of an enumerated segment list, in order. -/
def segNames (tempDir : String) (l : List (ℕ × ℚ × ℚ)) : List String :=
  l.map (fun x => segFileName tempDir x.1)

lemma enum1From_length (n : ℕ) (l : List (ℚ × ℚ)) : (enum1From n l).length = l.length := by
  induction l generalizing n with
  | nil => rfl
  | cons p rest ih => simp [enum1From, ih]

lemma enum1From_append (n : ℕ) (a b : List (ℚ × ℚ)) :
    enum1From n (a ++ b) = enum1From n a ++ enum1From (n + a.length) b := by
  induction a generalizing n with
  | nil => simp [enum1From]
  | cons p rest ih =>
    have h : n + 1 + rest.length = n + (rest.length + 1) := by omega
    simp only [List.cons_append, enum1From, List.length_cons]
    rw [show rest.append b = rest ++ b from rfl, ih (n + 1), h]

lemma cutSegs_all_ok (env : Env) (input tempDir : String) (l : List (ℕ × ℚ × ℚ))
    (h : ∀ x ∈ l, (env.run (cutCmd env input tempDir x.1 x.2.1 x.2.2)).returncode = 0) :
    cutSegs env input tempDir l = (cutTrace env input tempDir l, segNames tempDir l, none) := by
  induction l with
  | nil => rfl
  | cons x rest ih =>
    obtain ⟨idx, st, en⟩ := x
    have h0 := h (idx, st, en) (List.mem_cons_self _ _)
    simp only [cutSegs]
    rw [if_neg (by simp [h0])]
    rw [ih (fun y hy => h y (List.mem_cons_of_mem _ hy))]
    simp [cutTrace, segNames]

lemma cutSegs_first_fail (env : Env) (input tempDir : String)
    (a : List (ℕ × ℚ × ℚ)) (k : ℕ) (s e : ℚ) (tail : List (ℕ × ℚ × ℚ))
    (ha : ∀ x ∈ a, (env.run (cutCmd env input tempDir x.1 x.2.1 x.2.2)).returncode = 0)
    (hk : (env.run (cutCmd env input tempDir k s e)).returncode ≠ 0) :
    cutSegs env input tempDir (a ++ (k, s, e) :: tail) =
      (cutTrace env input tempDir a ++ [Event.runProc (cutCmd env input tempDir k s e)],
       segNames tempDir a ++ [segFileName tempDir k],
       some (k, (env.run (cutCmd env input tempDir k s e)).stderr)) := by
  induction a with
  | nil =>
    rw [List.nil_append, cutSegs]
    simp [hk, cutTrace, segNames]
  | cons x rest ih =>
    obtain ⟨idx, st, en⟩ := x
    have h0 := ha (idx, st, en) (List.mem_cons_self _ _)
    rw [List.cons_append]
    simp only [cutSegs]
    rw [if_neg (by simp [h0])]
    rw [ih (fun y hy => ha y (List.mem_cons_of_mem _ hy))]
    simp [cutTrace, segNames]

lemma cutSegs_no_manifest (env : Env) (input tempDir : String) (l : List (ℕ × ℚ × ℚ))
    (p : String) (lines : List String) :
    Event.writeManifest p lines ∉ (cutSegs env input tempDir l).1 := by
  induction l with
  | nil => simp [cutSegs]
  | cons x rest ih =>
    obtain ⟨idx, st, en⟩ := x
    simp only [cutSegs]
    by_cases h0 : (env.run (cutCmd env input tempDir idx st en)).returncode ≠ 0
    · rw [if_pos h0]
      simp
    · rw [if_neg h0]
      simp [ih]

lemma cutSegs_files_of_none (env : Env) (input tempDir : String) (l : List (ℕ × ℚ × ℚ))
    (h : (cutSegs env input tempDir l).2.2 = none) :
    (cutSegs env input tempDir l).2.1 = segNames tempDir l := by
  induction l with
  | nil => rfl
  | cons x rest ih =>
    obtain ⟨idx, st, en⟩ := x
    simp only [cutSegs] at h ⊢
    by_cases h0 : (env.run (cutCmd env input tempDir idx st en)).returncode ≠ 0
    · rw [if_pos h0] at h
      simp at h
    · rw [if_neg h0] at h ⊢
      simp only at h ⊢
      simp [segNames, ih h]

lemma runProc_mem_cutTrace (env : Env) (input tempDir : String) (l : List (ℕ × ℚ × ℚ))
    (c : List String) (h : Event.runProc c ∈ cutTrace env input tempDir l) :
    c ∈ l.map (fun x => cutCmd env input tempDir x.1 x.2.1 x.2.2) := by
  induction l with
  | nil => simp [cutTrace] at h
  | cons x rest ih =>
    obtain ⟨idx, st, en⟩ := x
    simp only [cutTrace, List.mem_cons] at h
    rcases h with h | h | h
    · simp only [Event.runProc.injEq] at h
      simp [h]
    · cases h
    · simp [ih h]

lemma writtenPaths_append (a b : List Event) :
    writtenPaths (a ++ b) = writtenPaths a ++ writtenPaths b := by
  induction a with
  | nil => rfl
  | cons ev rest ih =>
    cases ev <;> simp [writtenPaths, ih]

@[simp] lemma writtenPaths_nil : writtenPaths [] = [] := rfl

@[simp] lemma writtenPaths_cons_checkFfmpeg (r : List Event) :
    writtenPaths (Event.checkFfmpeg :: r) = writtenPaths r := rfl

@[simp] lemma writtenPaths_cons_makeTempDir (d : String) (r : List Event) :
    writtenPaths (Event.makeTempDir d :: r) = writtenPaths r := rfl

@[simp] lemma writtenPaths_cons_runProc (c : List String) (r : List Event) :
    writtenPaths (Event.runProc c :: r) = writtenPaths r := rfl

@[simp] lemma writtenPaths_cons_createFile (p : String) (r : List Event) :
    writtenPaths (Event.createFile p :: r) = p :: writtenPaths r := rfl

@[simp] lemma writtenPaths_cons_writeManifest (p : String) (lines : List String)
    (r : List Event) :
    writtenPaths (Event.writeManifest p lines :: r) = p :: writtenPaths r := rfl

@[simp] lemma writtenPaths_cons_removeTree (d : String) (r : List Event) :
    writtenPaths (Event.removeTree d :: r) = writtenPaths r := rfl

@[simp] lemma writtenPaths_cons_warn (m : String) (r : List Event) :
    writtenPaths (Event.warn m :: r) = writtenPaths r := rfl

lemma writtenPaths_cutTrace (env : Env) (input tempDir : String) (l : List (ℕ × ℚ × ℚ)) :
    writtenPaths (cutTrace env input tempDir l) = segNames tempDir l := by
  induction l with
  | nil => rfl
  | cons x rest ih =>
    obtain ⟨idx, st, en⟩ := x
    simp [cutTrace, writtenPaths, segNames, ih]

/-! ## Claim C5: processing modes, audio flag, progress callback -/

/-- Claim C5 (code evidence): `cut_video_segments` as defined in
`video_cutter.py` accepts only `input_video`, `segments`, `output_video` and
`temp_dir`; the keyword calls made by the GUI and interactive front ends
(with `mode`, `remove_audio`, `progress_callback`, …) are rejected by Python
call binding with a `TypeError`, and the single cut path always re-encodes
with `libx264` (there is no stream-copy or audio-drop variant). -/
theorem claim_c5_signature :
    callAccepted cutVideoSegmentsParams guiCallKeywords = false
    ∧ callAccepted cutVideoSegmentsParams interactiveCallKeywords = false
    ∧ cutVideoSegmentsParams.contains "mode" = false
    ∧ cutVideoSegmentsParams.contains "remove_audio" = false
    ∧ cutVideoSegmentsParams.contains "progress_callback" = false
    ∧ ∀ env input dir idx st en, "libx264" ∈ cutCmd env input dir idx st en := by
  refine ⟨by decide, by decide, by decide, by decide, by decide, ?_⟩
  intro env input dir idx st en
  simp [cutCmd]

/-! ## Claims C6-C9: cut/concat sequencing -/

/-- Claim C6: with ffmpeg present, the input existing and every external
invocation succeeding, the cutter runs the tool once per segment in input
order (seeking to `start` for duration `end - start`), creates exactly one
zero-padded-indexed temp file per segment, all before the manifest write and
the concat invocation; the only paths written are the temp files, the
manifest and the output, so the source file is untouched whenever it is none
of those. -/
theorem claim_c6 (env : Env) (rmtreeOk : Bool) (input output dir : String)
    (segs : List (ℚ × ℚ))
    (hff : env.ffmpegInstalled = true) (hin : env.inputExists input = true)
    (hrun : ∀ c, (env.run c).returncode = 0) :
    (cut_video_segments env rmtreeOk input segs output dir).events =
      [Event.checkFfmpeg, Event.makeTempDir dir]
        ++ cutTrace env input dir (enum1From 1 segs)
        ++ [Event.writeManifest (dir ++ "/concat_list.txt")
              ((segNames dir (enum1From 1 segs)).map (fun p => "file '" ++ env.absPath p ++ "'")),
            Event.runProc (concatCmd (dir ++ "/concat_list.txt") output),
            Event.createFile output]
        ++ cleanupEvents dir rmtreeOk
    ∧ (cut_video_segments env rmtreeOk input segs output dir).result = .ok ()
    ∧ (segNames dir (enum1From 1 segs)).length = segs.length
    ∧ (input ∉ segNames dir (enum1From 1 segs) → input ≠ dir ++ "/concat_list.txt" →
        input ≠ output →
        input ∉ writtenPaths (cut_video_segments env rmtreeOk input segs output dir).events) := by
  have hcut := cutSegs_all_ok env input dir (enum1From 1 segs) (fun x _ => hrun _)
  have hconcat := hrun (concatCmd (dir ++ "/concat_list.txt") output)
  have hout :
      cut_video_segments env rmtreeOk input segs output dir =
        ⟨[Event.checkFfmpeg, Event.makeTempDir dir]
          ++ cutTrace env input dir (enum1From 1 segs)
          ++ [Event.writeManifest (dir ++ "/concat_list.txt")
                ((segNames dir (enum1From 1 segs)).map
                  (fun p => "file '" ++ env.absPath p ++ "'")),
              Event.runProc (concatCmd (dir ++ "/concat_list.txt") output),
              Event.createFile output]
          ++ cleanupEvents dir rmtreeOk, .ok ()⟩ := by
    unfold cut_video_segments
    rw [hff, hin]
    simp only [Bool.true_eq_false, if_false, hcut]
    rw [if_neg (by simp [hconcat])]
  refine ⟨by rw [hout], by rw [hout], by simp [segNames, enum1From_length], ?_⟩
  intro h1 h2 h3
  rw [hout]
  simp only [cleanupEvents]
  rcases rmtreeOk with _ | _ <;>
    simp [writtenPaths_append, writtenPaths_cutTrace, List.mem_append, h1, h2, h3]

/-- A concrete world in which every external call succeeds. -/
def envAllOk : Env :=
  ⟨true, fun _ => true, fun _ => ⟨0, ""⟩, fun p => p, fun _ => "0"⟩

/-- Witness for C6: its hypotheses hold in `envAllOk` with one segment. -/
theorem claim_c6_witness :
    (cut_video_segments envAllOk true "in.mp4" [(0, 1)] "out.mp4" "tmp").result = .ok () :=
  (claim_c6 envAllOk true "in.mp4" "out.mp4" "tmp" [(0, 1)] rfl rfl (fun _ => rfl)).2.1

/-- Claim C7: if the external tool exits non-zero on a segment (here the one
following `pre`, with 1-based index `pre.length + 1`), the job aborts with
the per-segment `RuntimeError` (spec: `ProcessingError`) carrying that
invocation's stderr, no manifest is ever written, and every invocation that
ran is a cut command for a segment up to and including the failing one — so
later segments are never cut and the concat call never runs. -/
theorem claim_c7 (env : Env) (rmtreeOk : Bool) (input output dir : String)
    (pre post : List (ℚ × ℚ)) (s e : ℚ)
    (hff : env.ffmpegInstalled = true) (hin : env.inputExists input = true)
    (hpre : ∀ x ∈ enum1From 1 pre,
      (env.run (cutCmd env input dir x.1 x.2.1 x.2.2)).returncode = 0)
    (hfail : (env.run (cutCmd env input dir (pre.length + 1) s e)).returncode ≠ 0) :
    (cut_video_segments env rmtreeOk input (pre ++ (s, e) :: post) output dir).result =
      .error (.segmentError (pre.length + 1)
        (env.run (cutCmd env input dir (pre.length + 1) s e)).stderr)
    ∧ (∀ p lines, Event.writeManifest p lines ∉
        (cut_video_segments env rmtreeOk input (pre ++ (s, e) :: post) output dir).events)
    ∧ (∀ c, Event.runProc c ∈
        (cut_video_segments env rmtreeOk input (pre ++ (s, e) :: post) output dir).events →
        c ∈ (enum1From 1 (pre ++ [(s, e)])).map
          (fun x => cutCmd env input dir x.1 x.2.1 x.2.2)) := by
  have henum : enum1From 1 (pre ++ (s, e) :: post) =
      enum1From 1 pre ++ (pre.length + 1, s, e) :: enum1From (pre.length + 2) post := by
    rw [enum1From_append]
    have h : 1 + pre.length = pre.length + 1 := by omega
    rw [h]
    rfl
  have hcut := cutSegs_first_fail env input dir (enum1From 1 pre) (pre.length + 1) s e
    (enum1From (pre.length + 2) post) hpre hfail
  have hout :
      cut_video_segments env rmtreeOk input (pre ++ (s, e) :: post) output dir =
        ⟨[Event.checkFfmpeg, Event.makeTempDir dir]
          ++ (cutTrace env input dir (enum1From 1 pre)
              ++ [Event.runProc (cutCmd env input dir (pre.length + 1) s e)])
          ++ cleanupEvents dir rmtreeOk,
         .error (.segmentError (pre.length + 1)
           (env.run (cutCmd env input dir (pre.length + 1) s e)).stderr)⟩ := by
    unfold cut_video_segments
    rw [hff, hin]
    simp only [Bool.true_eq_false, if_false, henum, hcut]
  refine ⟨by rw [hout], ?_, ?_⟩
  · intro p lines
    rw [hout]
    have hnm : Event.writeManifest p lines ∉ cutTrace env input dir (enum1From 1 pre) := by
      have := cutSegs_no_manifest env input dir (enum1From 1 pre) p lines
      rwa [cutSegs_all_ok env input dir (enum1From 1 pre) hpre] at this
    simp only [cleanupEvents]
    rcases rmtreeOk with _ | _ <;> simp_all [List.mem_append]
  · intro c hc
    rw [hout] at hc
    have henum2 : enum1From 1 (pre ++ [(s, e)]) =
        enum1From 1 pre ++ [(pre.length + 1, s, e)] := by
      rw [enum1From_append]
      have h : 1 + pre.length = pre.length + 1 := by omega
      rw [h]
      rfl
    rw [henum2, List.map_append]
    simp only [cleanupEvents] at hc
    rcases rmtreeOk with _ | _ <;>
      · simp only [List.mem_append, List.mem_cons, List.mem_singleton, List.append_assoc,
          List.cons_append, List.nil_append] at hc
        rcases hc with hc | hc
        · simp_all
        · rcases hc with hc | hc
          · simp_all
          · rcases hc with hc | hc
            · exact List.mem_append_left _ (runProc_mem_cutTrace env input dir _ c hc)
            · simp_all

/-- A concrete world in which exactly the cut of `segment_002` fails. -/
def envFailSeg2 : Env :=
  ⟨true, fun _ => true,
   fun cmd => if cmd.contains "tmp/segment_002.mp4" then ⟨1, "boom"⟩ else ⟨0, ""⟩,
   fun p => p, fun _ => "0"⟩

/-- Witness for C7: its hypotheses hold in `envFailSeg2` for a three-segment
job failing on segment 2. -/
theorem claim_c7_witness :
    (cut_video_segments envFailSeg2 true "in.mp4" ([(0, 1)] ++ (2, 3) :: [(4, 5)])
        "out.mp4" "tmp").result =
      .error (.segmentError (List.length [((0 : ℚ), (1 : ℚ))] + 1)
        (envFailSeg2.run
          (cutCmd envFailSeg2 "in.mp4" "tmp" (List.length [((0 : ℚ), (1 : ℚ))] + 1) 2 3)).stderr) :=
  (claim_c7 envFailSeg2 true "in.mp4" "out.mp4" "tmp" [(0, 1)] [(4, 5)] 2 3 rfl rfl
    (by decide) (by decide)).1

/-- A concrete world in which the input video does not exist. -/
def envNoInput : Env :=
  ⟨true, fun _ => false, fun _ => ⟨0, ""⟩, fun p => p, fun _ => "0"⟩

/-- Counterexample to C8 as stated: a run that fails the input-existence
check raises `FileNotFoundError` before the `try`/`finally`, so no removal
of the temp directory is attempted on that (failing) run. -/
theorem claim_c8_counterexample :
    (cut_video_segments envNoInput true "in.mp4" [(0, 1)] "out.mp4" "temp_segments").result =
      .error (.notFound "Không tìm thấy file video: in.mp4")
    ∧ Event.removeTree "temp_segments" ∉
        (cut_video_segments envNoInput true "in.mp4" [(0, 1)] "out.mp4" "temp_segments").events := by
  constructor
  · rfl
  · decide

/-- Claim C8 (amended): on every run that passes the ffmpeg and
input-existence checks, removal of the temp directory is attempted whether
the run succeeds or fails; a failing `rmtree` changes nothing observable
except an extra warning event — the result is identical.  (Runs failing the
two precondition checks raise before the temp directory is created and
attempt no removal.) -/
theorem claim_c8_amended :
    (∀ env rmtreeOk input output dir segs,
        env.ffmpegInstalled = true → env.inputExists input = true →
        Event.removeTree dir ∈ (cut_video_segments env rmtreeOk input segs output dir).events)
    ∧ (∀ env input output dir segs,
        (cut_video_segments env false input segs output dir).result =
          (cut_video_segments env true input segs output dir).result
        ∧ ((cut_video_segments env false input segs output dir).events =
              (cut_video_segments env true input segs output dir).events
                ++ [Event.warn "Không thể xóa thư mục tạm"]
            ∨ (cut_video_segments env false input segs output dir).events =
              (cut_video_segments env true input segs output dir).events)) := by
  constructor
  · intro env rmtreeOk input output dir segs hff hin
    unfold cut_video_segments
    rw [hff, hin]
    simp only [Bool.true_eq_false, if_false]
    rcases h : (cutSegs env input dir (enum1From 1 segs)).2.2 with _ | ⟨idx, diag⟩ <;>
      · simp only [cleanupEvents]
        split <;> rcases rmtreeOk with _ | _ <;> simp
  · intro env input output dir segs
    unfold cut_video_segments
    rcases hff : env.ffmpegInstalled with _ | _
    · simp
    · simp only [Bool.true_eq_false, if_false]
      rcases hin : env.inputExists input with _ | _
      · simp
      · simp only [Bool.true_eq_false, if_false]
        rcases h : (cutSegs env input dir (enum1From 1 segs)).2.2 with _ | ⟨idx, diag⟩
        · by_cases hc :
            (env.run (concatCmd (dir ++ "/concat_list.txt") output)).returncode ≠ 0
          · refine ⟨?_, Or.inl ?_⟩ <;> simp [hc, cleanupEvents]
          · refine ⟨?_, Or.inl ?_⟩ <;> simp [hc, cleanupEvents]
        · refine ⟨?_, Or.inl ?_⟩ <;> simp [cleanupEvents]

/-- Witness for the amended C8: cleanup is attempted in a concrete
successful run. -/
theorem claim_c8_amended_witness :
    Event.removeTree "tmp" ∈
      (cut_video_segments envAllOk true "in.mp4" [(0, 1)] "out.mp4" "tmp").events :=
  claim_c8_amended.1 envAllOk true "in.mp4" "out.mp4" "tmp" [(0, 1)] rfl rfl

/-- Claim C9: any concat manifest the run writes is at
`temp_dir/concat_list.txt` and holds exactly one line per temp clip, in the
cutter's output order, each of the form `file '<absolute-path>'` with the
absolute form of that clip's path. -/
theorem claim_c9 (env : Env) (rmtreeOk : Bool) (input output dir : String)
    (segs : List (ℚ × ℚ)) (p : String) (lines : List String)
    (hmem : Event.writeManifest p lines ∈
      (cut_video_segments env rmtreeOk input segs output dir).events) :
    p = dir ++ "/concat_list.txt"
    ∧ lines = (segNames dir (enum1From 1 segs)).map
        (fun q => "file '" ++ env.absPath q ++ "'")
    ∧ lines.length = segs.length := by
  unfold cut_video_segments at hmem
  rcases hff : env.ffmpegInstalled with _ | _
  · rw [hff] at hmem
    simp at hmem
  · rw [hff] at hmem
    simp only [Bool.true_eq_false, if_false] at hmem
    rcases hin : env.inputExists input with _ | _
    · rw [hin] at hmem
      simp at hmem
    · rw [hin] at hmem
      simp only [Bool.true_eq_false, if_false] at hmem
      have hnm := cutSegs_no_manifest env input dir (enum1From 1 segs) p lines
      rcases h : (cutSegs env input dir (enum1From 1 segs)).2.2 with _ | ⟨idx, diag⟩
      · rw [h] at hmem
        have hfiles := cutSegs_files_of_none env input dir (enum1From 1 segs) h
        have hgoal : p = dir ++ "/concat_list.txt"
            ∧ lines = (cutSegs env input dir (enum1From 1 segs)).2.1.map
                (fun q => "file '" ++ env.absPath q ++ "'") := by
          by_cases hc :
              (env.run (concatCmd (dir ++ "/concat_list.txt") output)).returncode ≠ 0
          · rw [if_pos hc] at hmem
            simp only [cleanupEvents] at hmem
            rcases rmtreeOk with _ | _ <;>
              · simp only [List.append_assoc, List.cons_append, List.nil_append,
                  List.mem_append, List.mem_cons, List.not_mem_nil, or_false] at hmem
                rcases hmem with hmem | hmem <;> simp_all
          · rw [if_neg hc] at hmem
            simp only [cleanupEvents] at hmem
            rcases rmtreeOk with _ | _ <;>
              · simp only [List.append_assoc, List.cons_append, List.nil_append,
                  List.mem_append, List.mem_cons, List.not_mem_nil, or_false] at hmem
                rcases hmem with hmem | hmem <;> simp_all
        refine ⟨hgoal.1, ?_, ?_⟩
        · rw [hgoal.2, hfiles]
        · rw [hgoal.2, hfiles]
          simp [segNames, enum1From_length]
      · rw [h] at hmem
        simp only [cleanupEvents] at hmem
        rcases rmtreeOk with _ | _ <;>
          · simp only [List.append_assoc, List.cons_append, List.nil_append,
              List.mem_append, List.mem_cons, List.not_mem_nil, or_false] at hmem
            simp_all

/-- Witness for C9: the manifest-written hypothesis holds in a concrete
successful one-segment run. -/
theorem claim_c9_witness :
    "tmp/concat_list.txt" = "tmp" ++ "/concat_list.txt"
    ∧ ["file 'tmp/segment_001.mp4'"] =
        (segNames "tmp" (enum1From 1 [(0, 1)])).map
          (fun q => "file '" ++ envAllOk.absPath q ++ "'")
    ∧ (["file 'tmp/segment_001.mp4'"] : List String).length =
        [((0 : ℚ), (1 : ℚ))].length :=
  claim_c9 envAllOk true "in.mp4" "out.mp4" "tmp" [(0, 1)] "tmp/concat_list.txt"
    ["file 'tmp/segment_001.mp4'"] (by decide)

/-! ## Claim C10: `format_duration` / `parse_time_to_seconds` round trip

Lemma kit: correctness of the decimal printer, of `int()`/`float()` on digit
strings, of `strip`/`split` on whitespace-free strings, and floor/mod
arithmetic for exact-millisecond durations. -/

lemma decDigit_toNat (d : ℕ) (h : d < 10) : (decDigit d).toNat = 48 + d := by
  interval_cases d <;> rfl

lemma decDigit_isDigit (d : ℕ) (h : d < 10) : (decDigit d).isDigit = true := by
  interval_cases d <;> rfl

lemma digitsToNat_append_digit (a : List Char) (d : ℕ) (h : d < 10) :
    digitsToNat (a ++ [decDigit d]) = 10 * digitsToNat a + d := by
  unfold digitsToNat
  rw [List.foldl_append]
  simp [decDigit_toNat d h]

lemma digitsToNat_natToDecAux (f : ℕ) : ∀ n, n < 10 ^ f →
    digitsToNat (natToDecAux f n) = n := by
  induction f with
  | zero =>
    intro n hn
    interval_cases n
    rfl
  | succ f ih =>
    intro n hn
    by_cases h0 : n = 0
    · subst h0
      simp [natToDecAux, digitsToNat]
    · rw [natToDecAux, if_neg h0]
      have hdiv : n / 10 < 10 ^ f := by
        rw [Nat.div_lt_iff_lt_mul (by norm_num)]
        calc n < 10 ^ (f + 1) := hn
        _ = 10 ^ f * 10 := by ring
      rw [digitsToNat_append_digit _ _ (Nat.mod_lt n (by norm_num)), ih (n / 10) hdiv]
      omega

lemma natToDecAux_all_digits (f : ℕ) : ∀ n c, c ∈ natToDecAux f n →
    c.isDigit = true := by
  induction f with
  | zero => intro n c hc; simp [natToDecAux] at hc
  | succ f ih =>
    intro n c hc
    by_cases h0 : n = 0
    · subst h0; simp [natToDecAux] at hc
    · rw [natToDecAux, if_neg h0] at hc
      rcases List.mem_append.mp hc with hc | hc
      · exact ih (n / 10) c hc
      · rw [List.mem_singleton.mp hc]
        exact decDigit_isDigit _ (Nat.mod_lt n (by norm_num))

lemma natToDecAux_length (f : ℕ) : ∀ n w, n < 10 ^ w →
    (natToDecAux f n).length ≤ w := by
  induction f with
  | zero => intro n w _; simp [natToDecAux]
  | succ f ih =>
    intro n w hn
    by_cases h0 : n = 0
    · subst h0; simp [natToDecAux]
    · rw [natToDecAux, if_neg h0]
      have hw : 1 ≤ w := by
        rcases Nat.eq_zero_or_pos w with rfl | h
        · simp at hn; omega
        · exact h
      have hdiv : n / 10 < 10 ^ (w - 1) := by
        rw [Nat.div_lt_iff_lt_mul (by norm_num)]
        calc n < 10 ^ w := hn
        _ = 10 ^ (w - 1) * 10 := by
              rw [← pow_succ]
              congr 1
              omega
      have := ih (n / 10) (w - 1) hdiv
      simp only [List.length_append, List.length_singleton]
      omega

lemma digitsToNat_natToDec (n : ℕ) : digitsToNat (natToDec n) = n := by
  unfold natToDec
  by_cases h0 : n = 0
  · subst h0; rfl
  · rw [if_neg h0]
    exact digitsToNat_natToDecAux n n (Nat.lt_pow_self (by norm_num) n)

lemma natToDec_all_digits (n : ℕ) (c : Char) (hc : c ∈ natToDec n) :
    c.isDigit = true := by
  unfold natToDec at hc
  by_cases h0 : n = 0
  · rw [if_pos h0] at hc
    rw [List.mem_singleton.mp hc]
    rfl
  · rw [if_neg h0] at hc
    exact natToDecAux_all_digits n n c hc

lemma natToDec_ne_nil (n : ℕ) : natToDec n ≠ [] := by
  unfold natToDec
  by_cases h0 : n = 0
  · rw [if_pos h0]; simp
  · rw [if_neg h0]
    obtain ⟨f, rfl⟩ : ∃ f, n = f + 1 := ⟨n - 1, by omega⟩
    rw [natToDecAux, if_neg h0]
    simp

lemma natToDec_length_le (n w : ℕ) (hw : 1 ≤ w) (hn : n < 10 ^ w) :
    (natToDec n).length ≤ w := by
  unfold natToDec
  by_cases h0 : n = 0
  · rw [if_pos h0]; simpa using hw
  · rw [if_neg h0]
    exact natToDecAux_length n n w hn

lemma digitsToNat_zfillL (w : ℕ) (l : List Char) :
    digitsToNat (zfillL w l) = digitsToNat l := by
  unfold zfillL
  generalize w - l.length = m
  induction m with
  | zero => rfl
  | succ m ih =>
    rw [List.replicate_succ, List.cons_append]
    exact ih

lemma zfillL_all_digits (w : ℕ) (l : List Char) (h : ∀ c ∈ l, c.isDigit = true) :
    ∀ c ∈ zfillL w l, c.isDigit = true := by
  intro c hc
  rcases List.mem_append.mp hc with hc | hc
  · rw [List.eq_of_mem_replicate hc]
    rfl
  · exact h c hc

lemma zfillL_ne_nil (w : ℕ) (l : List Char) (h : l ≠ []) : zfillL w l ≠ [] := by
  unfold zfillL
  simp [h]

lemma zfillL_length (w : ℕ) (l : List Char) (h : l.length ≤ w) :
    (zfillL w l).length = w := by
  unfold zfillL
  simp only [List.length_append, List.length_replicate]
  omega

lemma isDigit_ne_plus (c : Char) (h : c.isDigit = true) : c ≠ '+' := by
  intro e
  subst e
  exact absurd h (by decide)

lemma isDigit_ne_minus (c : Char) (h : c.isDigit = true) : c ≠ '-' := by
  intro e
  subst e
  exact absurd h (by decide)

lemma pyIntL_digits (l : List Char) (hne : l ≠ []) (hd : ∀ c ∈ l, c.isDigit = true) :
    pyIntL l = some (digitsToNat l : ℤ) := by
  rcases l with _ | ⟨c, rest⟩
  · exact absurd rfl hne
  · have hc := hd c (List.mem_cons_self _ _)
    rw [pyIntL, if_neg (isDigit_ne_plus c hc), if_neg (isDigit_ne_minus c hc)]
    rw [pyIntDigits, if_neg (by simp), if_pos]
    exact List.all_eq_true.mpr hd

lemma takeWhile_digits_dot (a b : List Char) (ha : ∀ c ∈ a, c.isDigit = true) :
    (a ++ '.' :: b).takeWhile Char.isDigit = a
      ∧ (a ++ '.' :: b).dropWhile Char.isDigit = '.' :: b := by
  induction a with
  | nil =>
    constructor
    · rw [List.nil_append, List.takeWhile_cons]
      simp
    · rw [List.nil_append, List.dropWhile_cons]
      simp
  | cons c rest ih =>
    have hc := ha c (List.mem_cons_self _ _)
    have hrest := ih (fun x hx => ha x (List.mem_cons_of_mem _ hx))
    constructor
    · rw [List.cons_append, List.takeWhile_cons, hc]
      simp [hrest.1]
    · rw [List.cons_append, List.dropWhile_cons, hc]
      simp [hrest.2]

lemma pyFloatL_digits_dot (a b : List Char) (hane : a ≠ [])
    (ha : ∀ c ∈ a, c.isDigit = true) (hb : ∀ c ∈ b, c.isDigit = true) :
    pyFloatL (a ++ '.' :: b) =
      some ((digitsToNat a : ℚ) + (digitsToNat b : ℚ) / 10 ^ b.length) := by
  rcases a with _ | ⟨c, rest⟩
  · exact absurd rfl hane
  · have hc := ha c (List.mem_cons_self _ _)
    rw [List.cons_append, pyFloatL, if_neg (isDigit_ne_plus c hc),
      if_neg (isDigit_ne_minus c hc), ← List.cons_append]
    have htd := takeWhile_digits_dot (c :: rest) b ha
    rw [pyFloatDigits]
    simp only [htd.1, htd.2]
    rw [if_pos (List.all_eq_true.mpr hb), if_neg (by simp)]

lemma dropWhile_eq_self_of_all (p : Char → Bool) (l : List Char)
    (h : ∀ c ∈ l, p c = false) : l.dropWhile p = l := by
  cases l with
  | nil => rfl
  | cons c rest =>
    rw [List.dropWhile_cons, h c (List.mem_cons_self _ _)]
    simp

lemma stripL_eq_self (l : List Char) (h : ∀ c ∈ l, c.isWhitespace = false) :
    stripL l = l := by
  unfold stripL
  rw [dropWhile_eq_self_of_all _ _ h,
    dropWhile_eq_self_of_all _ _ (fun c hc => h c (List.mem_reverse.mp hc)),
    List.reverse_reverse]

lemma isDigit_not_ws (c : Char) (h : c.isDigit = true) : c.isWhitespace = false := by
  rcases hw : c.isWhitespace with _ | _
  · rfl
  · exfalso
    have : ((c = ' ' ∨ c = '\t') ∨ c = '\x0d') ∨ c = '\n' := by
      simpa [Char.isWhitespace] using hw
    rcases this with ((rfl | rfl) | rfl) | rfl <;> exact absurd h (by decide)

lemma splitOnChar_no_sep (sep : Char) (a : List Char) (h : sep ∉ a) :
    splitOnChar sep a = [a] := by
  induction a with
  | nil => rfl
  | cons c rest ih =>
    have hc : ¬ c = sep := by
      intro e
      exact h (by rw [← e]; exact List.mem_cons_self _ _)
    rw [splitOnChar, if_neg hc, ih (fun hm => h (List.mem_cons_of_mem _ hm))]

lemma splitOnChar_append_sep (sep : Char) (a b : List Char) (h : sep ∉ a) :
    splitOnChar sep (a ++ sep :: b) = a :: splitOnChar sep b := by
  induction a with
  | nil =>
    rw [List.nil_append, splitOnChar, if_pos rfl]
  | cons c rest ih =>
    have hc : ¬ c = sep := by
      intro e
      exact h (by rw [← e]; exact List.mem_cons_self _ _)
    rw [List.cons_append, splitOnChar, if_neg hc,
      ih (fun hm => h (List.mem_cons_of_mem _ hm))]

lemma floor_natCast_div (a b : ℕ) : ⌊(a : ℚ) / (b : ℚ)⌋ = ((a / b : ℕ) : ℤ) := by
  rw [Rat.floor_natCast_div_natCast a b]
  exact (Int.ofNat_div a b).symm

lemma pyFloorMod_div1000 (k n : ℕ) :
    pyFloorMod ((k : ℚ) / 1000) (n : ℚ) = ((k % (1000 * n) : ℕ) : ℚ) / 1000 := by
  unfold pyFloorMod
  have h1 : ((k : ℚ) / 1000) / (n : ℚ) = (k : ℚ) / ((1000 * n : ℕ) : ℚ) := by
    push_cast
    rw [div_div]
  rw [h1, floor_natCast_div]
  have hdm : (1000 * (n : ℚ)) * ((k / (1000 * n) : ℕ) : ℚ) + ((k % (1000 * n) : ℕ) : ℚ)
      = (k : ℚ) := by
    exact_mod_cast Nat.div_add_mod k (1000 * n)
  rw [Int.cast_natCast, ← hdm]
  ring

lemma floor_natCast_add_half (r : ℕ) : ⌊(r : ℚ) + 1 / 2⌋ = (r : ℤ) := by
  rw [Int.floor_eq_iff]
  constructor
  · push_cast
    linarith
  · push_cast
    linarith

lemma pyIntL_pad2 (w x : ℕ) : pyIntL (zfillL w (natToDec x)) = some (x : ℤ) := by
  rw [pyIntL_digits _ (zfillL_ne_nil _ _ (natToDec_ne_nil x))
    (zfillL_all_digits _ _ (natToDec_all_digits x)), digitsToNat_zfillL, digitsToNat_natToDec]

lemma fmtSecs63_eval (m : ℕ) :
    fmtSecs63 ((m : ℚ) / 1000) =
      zfillL 2 (natToDec (m / 1000)) ++ '.' :: zfillL 3 (natToDec (m % 1000)) := by
  unfold fmtSecs63
  have hq : (m : ℚ) / 1000 * 1000 + 1 / 2 = (m : ℚ) + 1 / 2 := by
    rw [div_mul_cancel₀]
    norm_num
  rw [hq, floor_natCast_add_half, Int.toNat_natCast]

lemma pyFloat_fmtSecs (m : ℕ) :
    pyFloatL (fmtSecs63 ((m : ℚ) / 1000)) = some ((m : ℚ) / 1000) := by
  rw [fmtSecs63_eval]
  rw [pyFloatL_digits_dot _ _ (zfillL_ne_nil _ _ (natToDec_ne_nil _))
    (zfillL_all_digits _ _ (natToDec_all_digits _))
    (zfillL_all_digits _ _ (natToDec_all_digits _))]
  rw [digitsToNat_zfillL, digitsToNat_natToDec, digitsToNat_zfillL, digitsToNat_natToDec]
  rw [zfillL_length 3 _ (natToDec_length_le (m % 1000) 3 (by norm_num)
    (by have := Nat.mod_lt m (show 0 < 1000 by norm_num); norm_num; omega))]
  have hdm : (1000 : ℚ) * ((m / 1000 : ℕ) : ℚ) + ((m % 1000 : ℕ) : ℚ) = (m : ℚ) := by
    exact_mod_cast Nat.div_add_mod m 1000
  have h3 : ((10 : ℚ)) ^ (3 : ℕ) = 1000 := by norm_num
  have hsum : ((m / 1000 : ℕ) : ℚ) + ((m % 1000 : ℕ) : ℚ) / 1000 = (m : ℚ) / 1000 := by
    field_simp
    linarith [hdm]
  rw [h3, hsum]

/-- Characters of the formatted seconds field: digits and one dot. -/
lemma fmtSecs63_chars (q : ℚ) (c : Char) (hc : c ∈ fmtSecs63 q) :
    c.isDigit = true ∨ c = '.' := by
  unfold fmtSecs63 at hc
  rcases List.mem_append.mp hc with hc | hc
  · exact Or.inl (zfillL_all_digits _ _ (natToDec_all_digits _) c hc)
  · rcases List.mem_cons.mp hc with rfl | hc
    · exact Or.inr rfl
    · exact Or.inl (zfillL_all_digits _ _ (natToDec_all_digits _) c hc)

lemma not_colon_of_digits (l : List Char) (h : ∀ c ∈ l, c.isDigit = true) : ':' ∉ l := by
  intro hc
  exact absurd (h ':' hc) (by decide)

lemma not_colon_fmtSecs (q : ℚ) : ':' ∉ fmtSecs63 q := by
  intro hc
  rcases fmtSecs63_chars q ':' hc with h | h
  · exact absurd h (by decide)
  · exact absurd h (by decide)

lemma intZPadL_natCast (w : ℕ) (x : ℕ) : intZPadL w ((x : ℕ) : ℤ) = zfillL w (natToDec x) := by
  unfold intZPadL
  rw [if_neg (by simp), Int.toNat_natCast]

lemma ws_free_two (a : List Char) (q : ℚ) (ha : ∀ c ∈ a, c.isDigit = true) :
    ∀ c ∈ a ++ ':' :: fmtSecs63 q, c.isWhitespace = false := by
  intro c hc
  rcases List.mem_append.mp hc with hc | hc
  · exact isDigit_not_ws c (ha c hc)
  · rcases List.mem_cons.mp hc with rfl | hc
    · decide
    · rcases fmtSecs63_chars q c hc with h | rfl
      · exact isDigit_not_ws c h
      · decide

lemma ws_free_three (a b : List Char) (q : ℚ)
    (ha : ∀ c ∈ a, c.isDigit = true) (hb : ∀ c ∈ b, c.isDigit = true) :
    ∀ c ∈ a ++ ':' :: (b ++ ':' :: fmtSecs63 q), c.isWhitespace = false := by
  intro c hc
  rcases List.mem_append.mp hc with hc | hc
  · exact isDigit_not_ws c (ha c hc)
  · rcases List.mem_cons.mp hc with rfl | hc
    · decide
    · exact ws_free_two b q hb c hc

/-- Claim C10: every non-negative duration that is an exact multiple of one
millisecond round-trips through `format_duration` and
`parse_time_to_seconds` (`MM:SS.mmm` below one hour, `HH:MM:SS.mmm` from one
hour up, three decimals, always re-parseable to the same value). -/
theorem claim_c10 (k : ℕ) :
    parse_time_to_seconds (format_duration ((k : ℚ) / 1000)) = .ok ((k : ℚ) / 1000) := by
  have hmod3600 := pyFloorMod_div1000 k 3600
  have hmod60 := pyFloorMod_div1000 k 60
  norm_num at hmod3600 hmod60
  have hours_eq : ⌊((k : ℚ) / 1000) / 3600⌋ = ((k / 3600000 : ℕ) : ℤ) := by
    have h1 : ((k : ℚ) / 1000) / 3600 = (k : ℚ) / ((3600000 : ℕ) : ℚ) := by
      rw [div_div]
      norm_num
    rw [h1, floor_natCast_div]
  have hmin : ⌊(((k % 3600000 : ℕ) : ℚ) / 1000) / 60⌋ = ((k % 3600000 / 60000 : ℕ) : ℤ) := by
    have h1 : (((k % 3600000 : ℕ) : ℚ) / 1000) / 60 =
        ((k % 3600000 : ℕ) : ℚ) / ((60000 : ℕ) : ℚ) := by
      rw [div_div]
      norm_num
    rw [h1, floor_natCast_div]
  simp only [format_duration, formatDurationL]
  rw [hmod3600, hmod60, hmin, hours_eq]
  by_cases hk : k < 3600000
  · rw [Nat.div_eq_of_lt hk, Nat.mod_eq_of_lt hk]
    rw [if_neg (by simp)]
    rw [intZPadL_natCast]
    have hA : ∀ c ∈ zfillL 2 (natToDec (k / 60000)), c.isDigit = true :=
      zfillL_all_digits _ _ (natToDec_all_digits _)
    have hsplit : splitOnChar ':'
        (stripL (String.mk (zfillL 2 (natToDec (k / 60000)) ++ ':' ::
          fmtSecs63 (((k % 60000 : ℕ) : ℚ) / 1000))).toList) =
        [zfillL 2 (natToDec (k / 60000)), fmtSecs63 (((k % 60000 : ℕ) : ℚ) / 1000)] := by
      show splitOnChar ':' (stripL (zfillL 2 (natToDec (k / 60000)) ++ ':' ::
        fmtSecs63 (((k % 60000 : ℕ) : ℚ) / 1000))) = _
      rw [stripL_eq_self _ (ws_free_two _ _ hA),
        splitOnChar_append_sep ':' _ _ (not_colon_of_digits _ hA),
        splitOnChar_no_sep ':' _ (not_colon_fmtSecs _)]
    rw [parse_time_two _ _ _ ((k / 60000 : ℕ) : ℤ) (((k % 60000 : ℕ) : ℚ) / 1000)
      hsplit (pyIntL_pad2 2 _) (pyFloat_fmtSecs _)]
    have harith : ((((k / 60000 : ℕ) : ℤ) : ℚ)) * 60 + ((k % 60000 : ℕ) : ℚ) / 1000 =
        (k : ℚ) / 1000 := by
      rw [Int.cast_natCast]
      have hdm : (60000 : ℚ) * ((k / 60000 : ℕ) : ℚ) + ((k % 60000 : ℕ) : ℚ) = (k : ℚ) := by
        exact_mod_cast Nat.div_add_mod k 60000
      field_simp
      linarith
    rw [harith]
  · rw [if_pos (by
      exact_mod_cast Int.natCast_pos.mpr (Nat.div_pos (le_of_not_lt hk) (by norm_num)))]
    rw [intZPadL_natCast, intZPadL_natCast]
    have hA1 : ∀ c ∈ zfillL 2 (natToDec (k / 3600000)), c.isDigit = true :=
      zfillL_all_digits _ _ (natToDec_all_digits _)
    have hA2 : ∀ c ∈ zfillL 2 (natToDec (k % 3600000 / 60000)), c.isDigit = true :=
      zfillL_all_digits _ _ (natToDec_all_digits _)
    have hsplit : splitOnChar ':'
        (stripL (String.mk (zfillL 2 (natToDec (k / 3600000)) ++ ':' ::
          zfillL 2 (natToDec (k % 3600000 / 60000)) ++ ':' ::
            fmtSecs63 (((k % 60000 : ℕ) : ℚ) / 1000))).toList) =
        [zfillL 2 (natToDec (k / 3600000)), zfillL 2 (natToDec (k % 3600000 / 60000)),
          fmtSecs63 (((k % 60000 : ℕ) : ℚ) / 1000)] := by
      have hdata : (String.mk (zfillL 2 (natToDec (k / 3600000)) ++ ':' ::
          zfillL 2 (natToDec (k % 3600000 / 60000)) ++ ':' ::
            fmtSecs63 (((k % 60000 : ℕ) : ℚ) / 1000))).toList =
          zfillL 2 (natToDec (k / 3600000)) ++ ':' ::
            (zfillL 2 (natToDec (k % 3600000 / 60000)) ++ ':' ::
              fmtSecs63 (((k % 60000 : ℕ) : ℚ) / 1000)) := by
        simp [List.cons_append, List.append_assoc]
      rw [hdata, stripL_eq_self _ (ws_free_three _ _ _ hA1 hA2),
        splitOnChar_append_sep ':' _ _ (not_colon_of_digits _ hA1),
        splitOnChar_append_sep ':' _ _ (not_colon_of_digits _ hA2),
        splitOnChar_no_sep ':' _ (not_colon_fmtSecs _)]
    rw [parse_time_three _ _ _ _ ((k / 3600000 : ℕ) : ℤ) ((k % 3600000 / 60000 : ℕ) : ℤ)
      (((k % 60000 : ℕ) : ℚ) / 1000) hsplit (pyIntL_pad2 2 _) (pyIntL_pad2 2 _)
      (pyFloat_fmtSecs _)]
    have hnat : 3600000 * (k / 3600000) + 60000 * (k % 3600000 / 60000) + k % 60000 = k := by
      omega
    have harith : ((((k / 3600000 : ℕ) : ℤ) : ℚ)) * 3600
        + ((((k % 3600000 / 60000 : ℕ) : ℤ) : ℚ)) * 60
        + ((k % 60000 : ℕ) : ℚ) / 1000 = (k : ℚ) / 1000 := by
      rw [Int.cast_natCast, Int.cast_natCast]
      have hq : (3600000 : ℚ) * ((k / 3600000 : ℕ) : ℚ)
          + (60000 : ℚ) * ((k % 3600000 / 60000 : ℕ) : ℚ)
          + ((k % 60000 : ℕ) : ℚ) = (k : ℚ) := by
        exact_mod_cast hnat
      field_simp
      linarith
    rw [harith]
